import Mathlib

/-!
# gribdl: run clock, step planner, URL templates, index parser and retry workers

A shallow embedding of `src/downloader/dwd.go` and `src/downloader/noaa.go`.

* Go `int` values are modelled as `Int`.  The loop counters of the planner are bounded by
  a per-run-hour cap taken from the registries (at most 384) plus 3, far from the 64-bit
  limits.  The product `maxStep*len(params)` that sizes the error channel can be large:
  it is wrapped to 64 bits, and `make` panics on a size it does not accept.
* A `time.Time` in UTC is modelled as the number of nanoseconds since the Unix epoch.
* Go strings that are inspected character by character are modelled as `List Char`.
* Goroutine fan-out is modelled by the ordered list of units that are spawned.
-/

namespace Gribdl

/-! ## Model registries (`models`, `noaaModels`) -/

/-- Go map read `m[k]` on a `map[int]int`: the stored value, or the zero value `0`
when the key is absent. -/
def mapGet (m : List (Int × Int)) (k : Int) : Int :=
  (m.lookup k).getD 0

/-- Go `_, ok := m[k]`: whether the key is present. -/
def mapHas (m : List (Int × Int)) (k : Int) : Bool :=
  (m.lookup k).isSome

/-- The struct `DWDModel` of dwd.go. -/
structure DWDModel where
  model : String
  openDataDeliveryOffsetMinutes : Int
  intervalHours : Int
  grid : String
  area : String
  urlFormat : String
  maxStep : List (Int × Int)
  breakPoint : Int
deriving DecidableEq

/-- The struct `NOAAModel` of noaa.go. -/
structure NOAAModel where
  model : String
  openDataDeliveryOffsetMinutes : Int
  intervalHours : Int
  urlFormat : String
  res : String
  maxStep : List (Int × Int)
  breakPoint : Int
deriving DecidableEq

def iconModel : DWDModel where
  model := "icon"
  openDataDeliveryOffsetMinutes := 240
  intervalHours := 6
  grid := "icosahedral"
  area := "global"
  urlFormat := "https://opendata.dwd.de/weather/nwp/%sL/grib/%s/%sL/%sL_%s_%s_single-level_%s%s_%s_%sU.grib2.bz2"
  maxStep := [(0, 180), (6, 120), (12, 180), (18, 120)]
  breakPoint := 78

def iconD2Model : DWDModel where
  model := "icon-d2"
  openDataDeliveryOffsetMinutes := 540
  intervalHours := 12
  grid := "icosahedral"
  area := "germany"
  urlFormat := "https://opendata.dwd.de/weather/nwp/%sL/grib/%s/%sL/%sL_%s_%s_single-level_%s%s_%s_2d_%sL.grib2.bz2"
  maxStep := [(0, 180), (6, 120), (12, 180), (18, 120)]
  breakPoint := 24

def iconEuModel : DWDModel where
  model := "icon-eu"
  openDataDeliveryOffsetMinutes := 240
  intervalHours := 3
  grid := "regular-lat-lon"
  area := "europe"
  urlFormat := "https://opendata.dwd.de/weather/nwp/%sL/grib/%s/%sL/%sL_%s_%s_single-level_%s%s_%s_%sU.grib2.bz2"
  maxStep := [(0, 120), (3, 30), (6, 120), (9, 30), (12, 120), (15, 30), (18, 120), (21, 30)]
  breakPoint := 78

/-- The registry `models` of dwd.go. -/
def models : List (String × DWDModel) :=
  [("icon", iconModel), ("icon-d2", iconD2Model), ("icon-eu", iconEuModel)]

def gfsModel : NOAAModel where
  model := "gfs"
  openDataDeliveryOffsetMinutes := 360
  intervalHours := 6
  urlFormat := "https://noaa-gfs-bdp-pds.s3.amazonaws.com/gfs.%s/%s/atmos/gfs.t%sz.pgrb2.%s.f%s"
  res := "0p25"
  maxStep := [(0, 384), (6, 384), (12, 384), (18, 384)]
  breakPoint := 120

/-- The registry `noaaModels` of noaa.go. -/
def noaaModels : List (String × NOAAModel) :=
  [("gfs", gfsModel)]

/-! ## Go `time` primitives used by the run clock -/

/-- Go `time.Minute`, in nanoseconds. -/
def minuteNs : Int := 60000000000

/-- Go `time.Hour`, in nanoseconds. -/
def hourNs : Int := 3600000000000

/-- Seconds between Go's zero time (January 1, year 1, 00:00:00 UTC) and the Unix epoch:
the constant `unixToInternal` of package `time`. -/
def unixToInternal : Int := 62135596800

/-- Go `Time.Truncate(d)`: rounds `t` down to a multiple of `d` counted from Go's zero
time (year 1, not the Unix epoch); returns `t` unchanged when `d <= 0`. -/
def timeTruncate (t d : Int) : Int :=
  if d ≤ 0 then t else t - (t + unixToInternal * 1000000000) % d

/-- Go `Time.Hour()` of a UTC time: the hour within the day, in `[0, 23]`. -/
def timeHour (t : Int) : Int :=
  (t / 1000000000) % 86400 / 3600

/-- The body of `getMostRecentModelTimestamp` (identical in dwd.go and noaa.go), with
`time.Now()` passed in as `now`. -/
def mostRecentModelTimestamp (openDataDeliveryOffsetMinutes intervalHours now : Int) : Int :=
  let offset := (-openDataDeliveryOffsetMinutes) * minuteNs
  timeTruncate (now + offset) (intervalHours * hourNs)

/-- The method `DWDOpenDataDownloader.getMostRecentModelTimestamp`. -/
def DWDModel.getMostRecentModelTimestamp (md : DWDModel) (now : Int) : Int :=
  mostRecentModelTimestamp md.openDataDeliveryOffsetMinutes md.intervalHours now

/-- The method `NOAADownloader.getMostRecentModelTimestamp`. -/
def NOAAModel.getMostRecentModelTimestamp (md : NOAAModel) (now : Int) : Int :=
  mostRecentModelTimestamp md.openDataDeliveryOffsetMinutes md.intervalHours now

/-! ## Step planner and orchestrators -/

/-- The loop `for step := 0; step < firstLoop; step++` entered at `step`: the steps for
which a goroutine is spawned, in order. -/
def denseLoop (firstLoop : Int) (step : Int) : List Int :=
  if step < firstLoop then step :: denseLoop firstLoop (step + 1) else []
termination_by (firstLoop - step).toNat
decreasing_by omega

/-- The loop `for step := breakPoint; step <= maxStep; step += 3` entered at `step`. -/
def sparseLoop (maxStep : Int) (step : Int) : List Int :=
  if step ≤ maxStep then step :: sparseLoop maxStep (step + 3) else []
termination_by (maxStep + 1 - step).toNat
decreasing_by omega

/-- The capping statement `if wdp.maxStep > cap { wdp.maxStep = cap }`. -/
def capMaxStep (maxStep cap : Int) : Int :=
  if maxStep > cap then cap else maxStep

/-- The value of `firstLoop` after `if wdp.maxStep >= breakPoint { firstLoop = breakPoint }`. -/
def firstLoopOf (maxStep breakPoint : Int) : Int :=
  if maxStep ≥ breakPoint then breakPoint else maxStep

/-- All steps dispatched by the two loops for one effective maximum and breakpoint. -/
def stepPlan (maxStep breakPoint : Int) : List Int :=
  denseLoop (firstLoopOf maxStep breakPoint) 0 ++ sparseLoop maxStep breakPoint

/-- Go `int` arithmetic on a 64-bit platform: the mathematical result wrapped into
`[-2^63, 2^63)`. -/
def wrapInt64 (x : Int) : Int :=
  (x + 9223372036854775808) % 18446744073709551616 - 9223372036854775808

/-- Whether `make(chan error, size)` panics with "makechan: size out of range", after
`runtime.makechan`: the size is negative, or the buffer of 16-byte interface values
overflows a `uintptr`, or it exceeds `maxAlloc - hchanSize` (on linux/amd64
`maxAlloc = 2^48` and `hchanSize = 96`). -/
def makeChanPanics (size : Int) : Bool :=
  decide (size < 0) || decide (18446744073709551616 ≤ 16 * size) ||
    decide (281474976710656 - 96 < 16 * size)

/-- What an orchestrator did: the capacity given to `make(chan error, _)`, whether that
call panicked, and the goroutines spawned, in order. -/
structure Batch (α : Type) where
  timestamp : Int
  maxStep : Int
  errorsCap : Int
  panicked : Bool
  units : List α
deriving DecidableEq

/-- The part of `StartDWDDownloader` after the registry lookup, with `time.Now()` passed
in as `now` and `strings.Split(wdp.param, ",")` passed in as `params`.  The channel is
made from the capped maximum.  One unit is one goroutine, identified by its
`(param, step)` arguments. -/
def runDWD (md : DWDModel) (now : Int) (params : List String) (maxStep : Int) :
    Batch (String × Int) :=
  let timestamp := md.getMostRecentModelTimestamp now
  let maxStep := capMaxStep maxStep (mapGet md.maxStep (timeHour timestamp))
  let errorsCap := wrapInt64 (maxStep * params.length)
  if makeChanPanics errorsCap then
    { timestamp := timestamp, maxStep := maxStep, errorsCap := errorsCap,
      panicked := true, units := [] }
  else
    { timestamp := timestamp, maxStep := maxStep, errorsCap := errorsCap,
      panicked := false,
      units := params.flatMap fun p =>
        (denseLoop (firstLoopOf maxStep md.breakPoint) 0).map (fun s => (p, s)) ++
        (sparseLoop maxStep md.breakPoint).map (fun s => (p, s)) }

/-- The function `StartDWDDownloader`: `none` when the model name is not registered. -/
def StartDWDDownloader (now : Int) (modelName : String) (params : List String)
    (maxStep : Int) : Option (Batch (String × Int)) :=
  match models.lookup modelName with
  | none => none
  | some md => some (runDWD md now params maxStep)

/-- The part of `StartNOAADownloader` after the registry lookup.  The channel is made
from the requested maximum, before the capping statement runs.  One unit is one
goroutine, identified by its step; it walks all parameters itself. -/
def runNOAA (md : NOAAModel) (now : Int) (params : List String) (maxStep : Int) :
    Batch Int :=
  let timestamp := md.getMostRecentModelTimestamp now
  let errorsCap := wrapInt64 (maxStep * params.length)
  if makeChanPanics errorsCap then
    { timestamp := timestamp, maxStep := maxStep, errorsCap := errorsCap,
      panicked := true, units := [] }
  else
    let maxStep := capMaxStep maxStep (mapGet md.maxStep (timeHour timestamp))
    { timestamp := timestamp, maxStep := maxStep, errorsCap := errorsCap,
      panicked := false,
      units := denseLoop (firstLoopOf maxStep md.breakPoint) 0 ++
        sparseLoop maxStep md.breakPoint }

/-- The function `StartNOAADownloader`: `none` when the model name is not registered. -/
def StartNOAADownloader (now : Int) (modelName : String) (params : List String)
    (maxStep : Int) : Option (Batch Int) :=
  match noaaModels.lookup modelName with
  | none => none
  | some md => some (runNOAA md now params maxStep)

/-- The step plan as the specification describes it: every integer of
`[0, min e b)`, then, only when `e ≥ b`, the values `b, b+3, ...` not exceeding `e`. -/
def planSpec (e b : Int) : List Int :=
  (List.range (min e b).toNat).map (fun (k : Nat) => (k : Int)) ++
    (if b ≤ e then (List.range ((e - b) / 3 + 1).toNat).map (fun (k : Nat) => b + 3 * (k : Int))
     else [])

/-! ## URL templates (`formatString`) -/

/-- Go `strings.Split(s, sep)` for a one-character separator: the pieces between
separators; the empty string gives one empty piece. -/
def splitOn (sep : Char) : List Char → List (List Char)
  | [] => [[]]
  | c :: cs =>
    if c = sep then [] :: splitOn sep cs
    else
      match splitOn sep cs with
      | [] => [[c]]
      | p :: ps => (c :: p) :: ps

/-- Go `strings.HasPrefix(s, pre)`. -/
def hasPrefix (s pre : List Char) : Bool :=
  pre.isPrefixOf s

/-- Go slice indexing `args[i]` with a signed index: `none` stands for the run-time panic
"index out of range". -/
def argAt (args : List (List Char)) (i : Int) : Option (List Char) :=
  if 0 ≤ i then args.get? i.toNat else none

/-- The `switch` arm shared by the three placeholder kinds of `formatString`: emit the
transformed argument when `i-1 < len(args)`, then the rest of the part. -/
def substArm (xf : List Char → List Char) (args : List (List Char)) (i : Nat)
    (result tail : List Char) : Option (List Char) :=
  if (i : Int) - 1 < (args.length : Int) then
    match argAt args ((i : Int) - 1) with
    | none => none
    | some a => some (result ++ xf a ++ tail)
  else some (result ++ tail)

/-- One iteration of the `for i, part := range formatParts` loop of `formatString`:
the new value of `result`, or `none` when the iteration panics. -/
def formatStep (toUpper toLower : List Char → List Char) (args : List (List Char))
    (i : Nat) (part result : List Char) : Option (List Char) :=
  if i = 0 ∧ !hasPrefix part ['s', 'U'] ∧ !hasPrefix part ['s', 'L'] ∧ !hasPrefix part ['s'] then
    some (result ++ part)
  else if part.length = 0 then
    some result
  else if hasPrefix part ['s', 'U'] then
    substArm toUpper args i result (part.drop 2)
  else if hasPrefix part ['s', 'L'] then
    substArm toLower args i result (part.drop 2)
  else if hasPrefix part ['s'] then
    substArm id args i result (part.drop 1)
  else
    some (result ++ '%' :: part)

/-- The loop of `formatString` from index `i` on. -/
def formatLoop (toUpper toLower : List Char → List Char) (args : List (List Char)) :
    Nat → List (List Char) → List Char → Option (List Char)
  | _, [], result => some result
  | i, part :: rest, result =>
    match formatStep toUpper toLower args i part result with
    | none => none
    | some result' => formatLoop toUpper toLower args (i + 1) rest result'

/-- The function `formatString` of dwd.go.  The arguments are strings (every call site
passes strings, on which `fmt.Sprint` is the identity); `strings.ToUpper` and
`strings.ToLower` are passed in.  `none` stands for a run-time panic. -/
def formatString (toUpper toLower : List Char → List Char) (format : List Char)
    (args : List (List Char)) : Option (List Char) :=
  formatLoop toUpper toLower args 0 (splitOn '%' format) []

/-- The case mapping of `strings.ToUpper` on ASCII text. -/
def asciiUpper (s : List Char) : List Char := s.map Char.toUpper

/-- The case mapping of `strings.ToLower` on ASCII text. -/
def asciiLower (s : List Char) : List Char := s.map Char.toLower

/-- The three placeholders of the template language. -/
inductive Placeholder where
  | plain
  | upper
  | lower
deriving DecidableEq

/-- The text of a placeholder in a template: `%s`, `%sU`, `%sL`. -/
def Placeholder.text : Placeholder → List Char
  | .plain => ['%', 's']
  | .upper => ['%', 's', 'U']
  | .lower => ['%', 's', 'L']

/-- The transform a placeholder asks for. -/
def Placeholder.apply (toUpper toLower : List Char → List Char) :
    Placeholder → List Char → List Char
  | .plain, a => a
  | .upper, a => toUpper a
  | .lower, a => toLower a

/-- A template `lit0 ++ ph1 ++ lit1 ++ ... ++ phk ++ litk`. -/
structure Template where
  lit0 : List Char
  segs : List (Placeholder × List Char)

/-- The template as one string. -/
def Template.render (t : Template) : List Char :=
  t.lit0 ++ t.segs.flatMap fun seg => seg.1.text ++ seg.2

/-- The side conditions of the substitution contract: no literal contains `%`, the first
literal does not begin with `s`, and the literal after a plain `%s` does not begin with
`U` or `L`. -/
def Template.WellFormed (t : Template) : Prop :=
  '%' ∉ t.lit0 ∧ (∀ seg ∈ t.segs, '%' ∉ seg.2) ∧ t.lit0.head? ≠ some 's' ∧
    ∀ seg ∈ t.segs, seg.1 = Placeholder.plain →
      seg.2.head? ≠ some 'U' ∧ seg.2.head? ≠ some 'L'

/-- Positional substitution from argument index `i` on: the placeholder at position `i`
gives the transformed `i`-th argument when there is one and nothing otherwise, followed
by its literal. -/
def substituteFrom (toUpper toLower : List Char → List Char) (args : List (List Char)) :
    Nat → List (Placeholder × List Char) → List Char
  | _, [] => []
  | i, seg :: rest =>
    (match args.get? i with
      | some a => seg.1.apply toUpper toLower a
      | none => []) ++ seg.2 ++ substituteFrom toUpper toLower args (i + 1) rest

/-- Positional substitution with case folding, as the contract words it. -/
def Template.substitute (toUpper toLower : List Char → List Char) (t : Template)
    (args : List (List Char)) : List Char :=
  t.lit0 ++ substituteFrom toUpper toLower args 0 t.segs

/-- The part that `strings.Split(format, "%")` leaves for a placeholder and its literal. -/
def partOf (seg : Placeholder × List Char) : List Char :=
  seg.1.text.drop 1 ++ seg.2

/-! ## Index sidecar (`getIndexFile`) -/

/-- The value of an ASCII decimal digit. -/
def digitVal (c : Char) : Option Nat :=
  if '0' ≤ c ∧ c ≤ '9' then some (c.toNat - '0'.toNat) else none

/-- Reads a run of decimal digits, most significant first, onto the accumulator. -/
def parseDigits : List Char → Nat → Option Nat
  | [], acc => some acc
  | c :: cs, acc =>
    match digitVal c with
    | none => none
    | some d => parseDigits cs (10 * acc + d)

/-- Go `strconv.Atoi` on a 64-bit platform: an optional sign, then one or more decimal
digits, the value within the range of `int`; `none` stands for a non-nil error. -/
def Atoi (s : List Char) : Option Int :=
  match s with
  | [] => none
  | c :: cs =>
    let neg := c = '-'
    let ds := if c = '-' ∨ c = '+' then cs else s
    if ds = [] then none
    else
      match parseDigits ds 0 with
      | none => none
      | some n =>
        let v : Int := if neg then -(n : Int) else (n : Int)
        if -9223372036854775808 ≤ v ∧ v ≤ 9223372036854775807 then some v else none

/-- The anonymous struct `struct { Start int; End int }` stored in `IndexData`. -/
structure ByteRange where
  Start : Int
  End : Int
deriving DecidableEq

/-- A Go map as an association list with distinct keys. -/
abbrev GoMap (κ ν : Type) := List (κ × ν)

/-- Go map assignment `m[k] = v`. -/
def GoMap.set {κ ν : Type} [DecidableEq κ] (m : GoMap κ ν) (k : κ) (v : ν) : GoMap κ ν :=
  match m with
  | [] => [(k, v)]
  | (k', v') :: rest => if k' = k then (k, v) :: rest else (k', v') :: GoMap.set rest k v

/-- Go two-value map read `v, ok := m[k]`. -/
def GoMap.get {κ ν : Type} [DecidableEq κ] (m : GoMap κ ν) (k : κ) : Option ν :=
  match m with
  | [] => none
  | (k', v') :: rest => if k' = k then some v' else GoMap.get rest k

/-- The type `IndexData`: parameter code, then level code, then byte range. -/
abbrev IndexData := GoMap (List Char) (GoMap (List Char) ByteRange)

/-- The statements under `// Store the data` of `getIndexFile`: create the inner map when
the parameter code is new, then assign the range. -/
def storeEntry (result : IndexData) (fileType height : List Char) (start stop : Int) :
    IndexData :=
  let result := match GoMap.get result fileType with
    | some _ => result
    | none => GoMap.set result fileType []
  GoMap.set result fileType
    (GoMap.set ((GoMap.get result fileType).getD []) height ⟨start, stop⟩)

/-- The presence and value of `index[param][height]`. -/
def IndexData.entry (index : IndexData) (param height : List Char) : Option ByteRange :=
  match GoMap.get index param with
  | none => none
  | some inner => GoMap.get inner height

/-- The scanning loop of `getIndexFile` over the lines that the scanner still has to
deliver.  The inner `scanner.Scan()` takes the next line off the same scanner. -/
def indexLoop : List (List Char) → IndexData → IndexData
  | [], result => result
  | line :: rest, result =>
    let parts := splitOn ':' line
    if parts.length < 5 then indexLoop rest result
    else
      let fileType := parts.getD 3 []
      let height := parts.getD 4 []
      match Atoi (parts.getD 1 []) with
      | none => indexLoop rest result
      | some start =>
        match rest with
        | [] => storeEntry result fileType height start 0
        | nextLine :: rest' =>
          let nextParts := splitOn ':' nextLine
          if nextParts.length > 1 then
            match Atoi (nextParts.getD 1 []) with
            | none => indexLoop rest' result
            | some stop => indexLoop rest' (storeEntry result fileType height start stop)
          else indexLoop rest' (storeEntry result fileType height start 0)
termination_by lines => lines.length
decreasing_by all_goals simp_wf <;> omega

/-- What the HTTP fetch of the `.idx` resource gave: a transport error, or a body that the
line scanner splits into `lines`, ending with a scanner error when `scanErr` is set. -/
inductive IndexFetch where
  | fetchError
  | body (lines : List (List Char)) (scanErr : Bool)

/-- The errors `getIndexFile` returns. -/
inductive IndexError where
  | fetching
  | reading
deriving DecidableEq

/-- The function `NOAADownloader.getIndexFile`, on the outcome of the fetch. -/
def getIndexFile (fetch : IndexFetch) : Except IndexError IndexData :=
  match fetch with
  | .fetchError => .error .fetching
  | .body lines scanErr =>
    let result := indexLoop lines []
    if scanErr then .error .reading else .ok result

/-- A line that `getIndexFile` is meant to skip: fewer than 5 colon-separated fields, or a
byte-offset field that is not a decimal integer. -/
def malformed (line : List Char) : Bool :=
  decide ((splitOn ':' line).length < 5) || (Atoi ((splitOn ':' line).getD 1 [])).isNone

/-! ## Fetch-and-land workers (`downloadAndProcessFile`) -/

/-- What one HTTP request gave: a transport error, or a response with a status code. -/
inductive HttpResult where
  | transportError
  | response (status : Int)
deriving DecidableEq

/-- The outcome of every fallible operation of one attempt of a worker.  `http` is the
result of `httpClient.Get` / `httpClient.Do`; the flags say whether the later
operations succeed when they are reached. -/
structure Attempt where
  newRequestOk : Bool
  http : HttpResult
  createOk : Bool
  copyOk : Bool
  mkdirOk : Bool
  openSrcOk : Bool
  createDstOk : Bool
  copyDstOk : Bool
  removeOk : Bool

/-- The errors the workers build with `fmt.Errorf`. -/
inductive DLError where
  | creatingRequest
  | gettingUrl
  | badStatus (status : Int)
  | creatingFile
  | copyingFile
  | moveCreatingOutputDirectory
  | moveOpeningSourceFile
  | moveCreatingDestinationFile
  | moveCopyingFile
  | moveRemovingOriginalFile
deriving DecidableEq

/-- The result of a worker call: the number of HTTP requests issued so far and the
returned error (`none` is Go's `nil`). -/
structure WorkerResult where
  requests : Nat
  err : Option DLError
deriving DecidableEq

/-- Go `http.StatusOK`. -/
def StatusOK : Int := 200

/-- Go `http.StatusPartialContent`. -/
def StatusPartialContent : Int := 206

/-- The tail of the DWD worker after a successful copy: the move into the output folder.
Regridding never fails the unit, so it does not appear. -/
def dwdMove (a : Attempt) : Option DLError :=
  if !a.mkdirOk then some .moveCreatingOutputDirectory
  else if !a.openSrcOk then some .moveOpeningSourceFile
  else if !a.createDstOk then some .moveCreatingDestinationFile
  else if !a.copyDstOk then some .moveCopyingFile
  else if !a.removeOk then some .moveRemovingOriginalFile
  else none

/-- The method `DWDOpenDataDownloader.downloadAndProcessFile`.  `env n` is the outcome of
the attempt that issues request number `n`; `sent` requests were issued before the call. -/
def dwdDownloadAndProcessFile (env : Nat → Attempt) (sent : Nat) (retries : Int) :
    WorkerResult :=
  match (env sent).http with
  | .transportError =>
    if retries > 0 then dwdDownloadAndProcessFile env (sent + 1) (retries - 1)
    else ⟨sent + 1, some .gettingUrl⟩
  | .response status =>
    if status ≠ StatusOK then
      if retries > 0 then dwdDownloadAndProcessFile env (sent + 1) (retries - 1)
      else ⟨sent + 1, some (.badStatus status)⟩
    else if !(env sent).createOk then ⟨sent + 1, some .creatingFile⟩
    else if !(env sent).copyOk then
      if retries > 0 then dwdDownloadAndProcessFile env (sent + 1) (retries - 1)
      else ⟨sent + 1, some .copyingFile⟩
    else ⟨sent + 1, dwdMove (env sent)⟩
termination_by retries.toNat
decreasing_by all_goals omega

/-- The method `NOAADownloader.downloadAndProcessFile`.  After a response whose status is
not 206 and with no retries left, control falls out of the `if` and goes on to create the
file and copy the body. -/
def noaaDownloadAndProcessFile (env : Nat → Attempt) (sent : Nat) (retries : Int) :
    WorkerResult :=
  if !(env sent).newRequestOk then ⟨sent, some .creatingRequest⟩
  else
    match (env sent).http with
    | .transportError =>
      if retries > 0 then noaaDownloadAndProcessFile env (sent + 1) (retries - 1)
      else ⟨sent + 1, some .gettingUrl⟩
    | .response status =>
      if status ≠ StatusPartialContent ∧ retries > 0 then
        noaaDownloadAndProcessFile env (sent + 1) (retries - 1)
      else if !(env sent).createOk then ⟨sent + 1, some .creatingFile⟩
      else if !(env sent).copyOk then
        if retries > 0 then noaaDownloadAndProcessFile env (sent + 1) (retries - 1)
        else ⟨sent + 1, some .copyingFile⟩
      else ⟨sent + 1, none⟩
termination_by retries.toNat
decreasing_by all_goals omega

/-- An attempt fails at the network stage: the transport returns an error, or the status
is not the expected one. -/
def networkFailure (expected : Int) (a : Attempt) : Prop :=
  a.http = .transportError ∨ ∃ status, a.http = .response status ∧ status ≠ expected

/-- A server that answers every request with 404 and a readable body, on a machine where
every file operation succeeds. -/
def always404 : Nat → Attempt := fun _ =>
  { newRequestOk := true, http := .response 404, createOk := true, copyOk := true,
    mkdirOk := true, openSrcOk := true, createDstOk := true, copyDstOk := true,
    removeOk := true }

/-! ## Range header -/

/-- Go `fmt.Sprintf("%d", i)`. -/
def fmtInt (i : Int) : List Char :=
  if i < 0 then '-' :: (Nat.repr (-i).toNat).toList else (Nat.repr i.toNat).toList

/-- Go `index[param][height]` as the worker reads it: the zero struct when a key is
missing. -/
def IndexData.at (index : IndexData) (param height : List Char) : ByteRange :=
  (index.entry param height).getD ⟨0, 0⟩

/-- The value given to `req.Header.Set("Range", ...)` by the NOAA worker:
`fmt.Sprintf("bytes=%d-%d", Start, End)`. -/
def rangeHeader (index : IndexData) (param height : List Char) : List Char :=
  "bytes=".toList ++ fmtInt (index.at param height).Start ++ '-' ::
    fmtInt (index.at param height).End

/-- The first-byte and last-byte positions written into the Range header. -/
def rangePositions (index : IndexData) (param height : List Char) : Int × Int :=
  ((index.at param height).Start, (index.at param height).End)

/-- The number of bytes an HTTP byte range `first-last` asks for; both ends are
inclusive (RFC 9110, section 14.1.2). -/
def rangeSpan (r : Int × Int) : Int :=
  r.2 - r.1 + 1

/-! ## Step planner: auxiliary lemmas -/

theorem denseLoop_eq_range (n : Nat) : ∀ (f s : Int), (f - s).toNat = n →
    denseLoop f s = (List.range n).map (fun (k : Nat) => s + (k : Int)) := by
  induction n with
  | zero =>
    intro f s h
    rw [denseLoop, if_neg (by omega)]
    rfl
  | succ n ih =>
    intro f s h
    rw [denseLoop, if_pos (by omega), ih f (s + 1) (by omega), List.range_succ_eq_map]
    simp only [List.map_cons, List.map_map, Nat.cast_zero, add_zero, List.cons.injEq, true_and]
    apply List.map_congr_left
    intro k _
    simp only [Function.comp_apply, Nat.succ_eq_add_one, Nat.cast_add, Nat.cast_one]
    omega

theorem sparseLoop_eq_range (n : Nat) : ∀ (e s : Int), ((e - s + 3) / 3).toNat = n →
    sparseLoop e s = (List.range n).map (fun (k : Nat) => s + 3 * (k : Int)) := by
  induction n with
  | zero =>
    intro e s h
    rw [sparseLoop, if_neg (by omega)]
    rfl
  | succ n ih =>
    intro e s h
    rw [sparseLoop, if_pos (by omega), ih e (s + 3) (by omega), List.range_succ_eq_map]
    simp only [List.map_cons, List.map_map, Nat.cast_zero, mul_zero, add_zero, List.cons.injEq,
      true_and]
    apply List.map_congr_left
    intro k _
    simp only [Function.comp_apply, Nat.succ_eq_add_one, Nat.cast_add, Nat.cast_one]
    omega

theorem stepPlan_eq_planSpec (e b : Int) : stepPlan e b = planSpec e b := by
  unfold stepPlan planSpec firstLoopOf
  by_cases h : b ≤ e
  · rw [if_pos (ge_iff_le.mpr h), if_pos h,
      denseLoop_eq_range (min e b).toNat b 0 (by rw [min_eq_right h]; simp),
      sparseLoop_eq_range ((e - b) / 3 + 1).toNat e b (by congr 1; omega)]
    simp
  · rw [if_neg (by simpa using h), if_neg h,
      denseLoop_eq_range (min e b).toNat e 0 (by rw [min_eq_left (by omega)]; simp),
      sparseLoop_eq_range 0 e b (by omega)]
    simp

theorem planSpec_pairwise (e b : Int) : (planSpec e b).Pairwise (· < ·) := by
  unfold planSpec
  rw [List.pairwise_append]
  refine ⟨?_, ?_, ?_⟩
  · rw [List.pairwise_map]
    exact (List.pairwise_lt_range _).imp (fun h => by exact_mod_cast h)
  · split
    · rw [List.pairwise_map]
      exact (List.pairwise_lt_range _).imp (fun h => by omega)
    · exact List.Pairwise.nil
  · intro x hx y hy
    split at hy
    · simp only [List.mem_map, List.mem_range] at hx hy
      obtain ⟨i, hi, rfl⟩ := hx
      obtain ⟨j, _, rfl⟩ := hy
      omega
    · simp at hy

theorem length_planSpec (e b : Int) :
    ((planSpec e b).length : Int) =
      max (min e b) 0 + (if b ≤ e then (e - b) / 3 + 1 else 0) := by
  unfold planSpec
  split
  · simp only [List.length_append, List.length_map, List.length_range, Nat.cast_add]
    omega
  · simp only [List.length_append, List.length_map, List.length_range, List.length_nil,
      Nat.cast_add, Nat.cast_zero]
    omega

/-! ## Run clock: auxiliary lemmas -/

theorem runClock_le (off k now : Int) (hk : 0 < k) :
    mostRecentModelTimestamp off k now ≤ now - off * minuteNs := by
  have hd : ¬ k * hourNs ≤ 0 := by unfold hourNs; omega
  unfold mostRecentModelTimestamp timeTruncate
  simp only [if_neg hd]
  have := Int.emod_nonneg (now + -off * minuteNs + unixToInternal * 1000000000)
    (show k * hourNs ≠ 0 by omega)
  linarith

theorem runClock_lt (off k now : Int) (hk : 0 < k) :
    now - off * minuteNs - mostRecentModelTimestamp off k now < k * hourNs := by
  have hd : ¬ k * hourNs ≤ 0 := by unfold hourNs; omega
  unfold mostRecentModelTimestamp timeTruncate
  simp only [if_neg hd]
  have := Int.emod_lt_of_pos (now + -off * minuteNs + unixToInternal * 1000000000)
    (show 0 < k * hourNs by omega)
  linarith

/-- The distance between Go's zero time and the Unix epoch is a whole number of days,
and every run interval that divides 24 hours divides it. -/
theorem runClock_aligned (off k now : Int) (hk : 0 < k) (h24 : k ∣ 24) :
    mostRecentModelTimestamp off k now % (k * hourNs) = 0 := by
  have hd : ¬ k * hourNs ≤ 0 := by unfold hourNs; omega
  unfold mostRecentModelTimestamp timeTruncate
  simp only [if_neg hd]
  obtain ⟨j, hj⟩ := h24
  have hz : unixToInternal * 1000000000 = (k * hourNs) * (j * 719162) := by
    unfold unixToInternal hourNs
    have : (62135596800 : Int) * 1000000000 = 24 * 3600000000000 * 719162 := by norm_num
    rw [this, hj]; ring
  rw [hz]
  apply Int.emod_eq_zero_of_dvd
  have h1 := Int.emod_add_ediv (now + -off * minuteNs + k * hourNs * (j * 719162)) (k * hourNs)
  refine ⟨(now + -off * minuteNs + k * hourNs * (j * 719162)) / (k * hourNs) - j * 719162, ?_⟩
  linear_combination (-1 : Int) * h1

theorem runClock_greatest (off k now r' : Int) (hk : 0 < k)
    (hr : r' % (k * hourNs) = 0) (hle : r' ≤ now - off * minuteNs) (h24 : k ∣ 24) :
    r' ≤ mostRecentModelTimestamp off k now := by
  have hD : 0 < k * hourNs := by unfold hourNs; omega
  have h1 := runClock_lt off k now hk
  have h2 := runClock_aligned off k now hk h24
  obtain ⟨a, ha⟩ := Int.dvd_of_emod_eq_zero hr
  obtain ⟨b, hb⟩ := Int.dvd_of_emod_eq_zero h2
  by_contra hlt
  have hab : b + 1 ≤ a := by
    have : k * hourNs * b < k * hourNs * a := by rw [← ha, ← hb]; omega
    have := lt_of_mul_lt_mul_left this hD.le
    omega
  have : k * hourNs * (b + 1) ≤ k * hourNs * a := mul_le_mul_of_nonneg_left hab hD.le
  rw [← ha, mul_add, ← hb] at this
  omega

theorem timeHour_of_aligned (k r : Int) (h24 : k ∣ 24)
    (hr : r % (k * hourNs) = 0) : timeHour r % k = 0 ∧ 0 ≤ timeHour r ∧ timeHour r < 24 := by
  obtain ⟨q, hq⟩ := Int.dvd_of_emod_eq_zero hr
  have h1 : r / 1000000000 = 3600 * (k * q) := by
    have h0 : k * hourNs * q = 1000000000 * (3600 * (k * q)) := by unfold hourNs; ring
    rw [hq, h0]
    exact Int.mul_ediv_cancel_left _ (by norm_num)
  unfold timeHour
  rw [h1]
  have h2 : 3600 * (k * q) % 86400 / 3600 = (k * q) % 24 := by omega
  rw [h2]
  refine ⟨?_, by omega, by omega⟩
  obtain ⟨j, hj⟩ := h24
  rw [hj, Int.emod_emod_of_dvd _ (Dvd.intro j rfl)]
  exact Int.mul_emod_right k q

theorem capMaxStep_eq_min (m c : Int) : capMaxStep m c = min m c := by
  unfold capMaxStep
  split <;> omega

theorem planSpec_nil_of_neg (e b : Int) (he : e < 0) (hb : 0 ≤ b) : planSpec e b = [] := by
  unfold planSpec
  rw [if_neg (by omega)]
  have : (min e b).toNat = 0 := by omega
  simp [this]

theorem makeChanPanics_eq_false_iff (x : Int) :
    makeChanPanics x = false ↔ 0 ≤ x ∧ 16 * x ≤ 281474976710560 := by
  simp only [makeChanPanics, Bool.or_eq_false_iff, decide_eq_false_iff_not]
  omega

theorem wrapInt64_of_small (x : Int) (h0 : 0 ≤ x) (h1 : x < 9223372036854775808) :
    wrapInt64 x = x := by
  unfold wrapInt64
  omega

/-- A capacity that `make` accepts is not changed by the 64-bit wrap-around. -/
theorem makeChanPanics_wrapInt64 (x : Int) (h : makeChanPanics x = false) :
    makeChanPanics (wrapInt64 x) = false := by
  have h' := (makeChanPanics_eq_false_iff x).mp h
  rw [wrapInt64_of_small x h'.1 (by omega)]
  exact h

theorem makeChanPanics_mono (x y : Int) (h : makeChanPanics x = false) (h0 : 0 ≤ y)
    (hxy : y ≤ x) : makeChanPanics y = false := by
  rw [makeChanPanics_eq_false_iff] at h ⊢
  omega

/-- The units of `runDWD` are the planned steps, per parameter, whenever the effective
maximum is negative (nothing is planned, whether or not `make` panics) or `make` accepts
the capacity. -/
theorem runDWD_units (md : DWDModel) (now : Int) (params : List String) (m : Int)
    (hb : 0 ≤ md.breakPoint)
    (hc : min m (mapGet md.maxStep (timeHour (md.getMostRecentModelTimestamp now))) < 0 ∨
      makeChanPanics (min m (mapGet md.maxStep
        (timeHour (md.getMostRecentModelTimestamp now))) * params.length) = false) :
    (runDWD md now params m).units = params.flatMap fun p =>
      (planSpec (min m (mapGet md.maxStep (timeHour (md.getMostRecentModelTimestamp now))))
        md.breakPoint).map fun s => (p, s) := by
  unfold runDWD
  simp only [capMaxStep_eq_min]
  split
  · rename_i h
    have he : min m (mapGet md.maxStep (timeHour (md.getMostRecentModelTimestamp now))) < 0 := by
      rcases hc with hc | hc
      · exact hc
      · rw [makeChanPanics_wrapInt64 _ hc] at h
        exact absurd h (by decide)
    simp [planSpec_nil_of_neg _ _ he hb]
  · simp only [← List.map_append]
    rw [← stepPlan, stepPlan_eq_planSpec]

/-- The units of `runNOAA` are the planned steps whenever the requested maximum is
negative or `make` accepts the capacity computed from the requested maximum. -/
theorem runNOAA_units (md : NOAAModel) (now : Int) (params : List String) (m : Int)
    (hb : 0 ≤ md.breakPoint)
    (hc : m < 0 ∨ makeChanPanics (m * params.length) = false) :
    (runNOAA md now params m).units =
      planSpec (min m (mapGet md.maxStep (timeHour (md.getMostRecentModelTimestamp now))))
        md.breakPoint := by
  unfold runNOAA
  simp only [capMaxStep_eq_min]
  split
  · rename_i h
    have hm : m < 0 := by
      rcases hc with hc | hc
      · exact hc
      · rw [makeChanPanics_wrapInt64 _ hc] at h
        exact absurd h (by decide)
    rw [planSpec_nil_of_neg _ _ (by omega) hb]
  · simp only []
    rw [← stepPlan, stepPlan_eq_planSpec]

theorem mem_planSpec (e b s : Int) :
    s ∈ planSpec e b ↔ (0 ≤ s ∧ s < min e b) ∨ (b ≤ s ∧ s ≤ e ∧ (s - b) % 3 = 0) := by
  unfold planSpec
  simp only [List.mem_append, List.mem_map, List.mem_range]
  constructor
  · rintro (⟨k, hk, rfl⟩ | h)
    · left; omega
    · split at h
      · simp only [List.mem_map, List.mem_range] at h
        obtain ⟨k, hk, rfl⟩ := h
        right; omega
      · simp at h
  · rintro (⟨h0, h1⟩ | ⟨h0, h1, h2⟩)
    · left; exact ⟨s.toNat, by omega, by omega⟩
    · right
      rw [if_pos (by omega)]
      simp only [List.mem_map, List.mem_range]
      exact ⟨((s - b) / 3).toNat, by omega, by omega⟩

theorem iconEu_cap (now : Int) :
    10 ≤ mapGet iconEuModel.maxStep (timeHour (iconEuModel.getMostRecentModelTimestamp now)) := by
  have h := timeHour_of_aligned 3 _ (by decide)
    (runClock_aligned iconEuModel.openDataDeliveryOffsetMinutes 3 now (by decide) (by decide))
  have h3 : iconEuModel.getMostRecentModelTimestamp now =
      mostRecentModelTimestamp iconEuModel.openDataDeliveryOffsetMinutes 3 now := rfl
  rw [h3]
  generalize timeHour _ = hr at h
  obtain ⟨h1, h2, h4⟩ := h
  have : hr = 0 ∨ hr = 3 ∨ hr = 6 ∨ hr = 9 ∨ hr = 12 ∨ hr = 15 ∨ hr = 18 ∨ hr = 21 := by omega
  rcases this with h | h | h | h | h | h | h | h <;> subst h <;> decide

/-- The step plan has the documented shape on every run in which the error channel is
made: for every model descriptor with a non-negative breakpoint `b`, with `c` the cap of
the run hour and `e = min m c`, `runDWD` dispatches, for each parameter in turn, exactly
the steps `[0, min e b)` followed (only when `e ≥ b`) by `b, b+3, ...` up to `e`, and
`runNOAA` dispatches exactly that sequence; the sequence is strictly increasing. -/
theorem plan_shape_when_channel_made (dm : DWDModel) (nm : NOAAModel) (now : Int)
    (params : List String) (m : Int) (hd : 0 ≤ dm.breakPoint) (hn : 0 ≤ nm.breakPoint)
    (hcd : min m (mapGet dm.maxStep (timeHour (dm.getMostRecentModelTimestamp now))) < 0 ∨
      makeChanPanics (min m (mapGet dm.maxStep
        (timeHour (dm.getMostRecentModelTimestamp now))) * params.length) = false)
    (hcn : m < 0 ∨ makeChanPanics (m * params.length) = false) :
    (runDWD dm now params m).units = (params.flatMap fun p =>
      (planSpec (min m (mapGet dm.maxStep (timeHour (dm.getMostRecentModelTimestamp now))))
        dm.breakPoint).map fun s => (p, s)) ∧
    (runNOAA nm now params m).units =
      planSpec (min m (mapGet nm.maxStep (timeHour (nm.getMostRecentModelTimestamp now))))
        nm.breakPoint ∧
    (∀ e b : Int, (planSpec e b).Pairwise (· < ·)) :=
  ⟨runDWD_units dm now params m hd hcd, runNOAA_units nm now params m hn hcn,
    planSpec_pairwise⟩

/-- With a requested maximum of 10, icon-eu dispatches the steps `0, 1, ..., 9` for each
parameter at every run hour, as long as a channel of `10 * len(params)` errors can be
made. -/
theorem iconEu_plan_ten (now : Int) (params : List String)
    (hc : makeChanPanics (10 * params.length) = false) :
    (runDWD iconEuModel now params 10).units =
      params.flatMap fun p => [0, 1, 2, 3, 4, 5, 6, 7, 8, 9].map fun s => (p, s) := by
  rw [runDWD_units iconEuModel now params 10 (by decide)
    (Or.inr (by rw [min_eq_left (iconEu_cap now)]; exact hc)),
    min_eq_left (iconEu_cap now)]
  rfl

/-- C1 on the code: `StartNOAADownloader` sizes the error channel from the requested
maximum before it caps it.  For gfs with one parameter and `maxStep = 2^60` the capacity
is `2^60`, `make` panics and no step is dispatched, although the effective maximum is
`min(2^60, 384) = 384` and the plan for it has 209 steps.  `StartDWDDownloader` caps
first: for icon with the same request the capacity is 120 and the channel is made. -/
theorem noaa_sizes_channel_before_capping :
    (runNOAA gfsModel 1704110400000000000 ["TMP"] 1152921504606846976).errorsCap =
      1152921504606846976 ∧
    (runNOAA gfsModel 1704110400000000000 ["TMP"] 1152921504606846976).panicked = true ∧
    (runNOAA gfsModel 1704110400000000000 ["TMP"] 1152921504606846976).units = [] ∧
    min 1152921504606846976 (mapGet gfsModel.maxStep
      (timeHour (gfsModel.getMostRecentModelTimestamp 1704110400000000000))) = 384 ∧
    (planSpec 384 gfsModel.breakPoint).length = 209 ∧
    (runDWD iconModel 1704110400000000000 ["t_2m"] 1152921504606846976).errorsCap = 120 ∧
    (runDWD iconModel 1704110400000000000 ["t_2m"] 1152921504606846976).panicked = false := by
  refine ⟨by decide, by decide, by decide, by decide, ?_, by decide, by decide⟩
  have h := length_planSpec 384 gfsModel.breakPoint
  rw [show max (min 384 gfsModel.breakPoint) 0 +
      (if gfsModel.breakPoint ≤ 384 then (384 - gfsModel.breakPoint) / 3 + 1 else 0) = 209
    by decide] at h
  exact_mod_cast h

/-! ## Claims about the run clock -/

/-- C2 (run clock): for every registered model and every instant `now`, the timestamp `r`
returned by `getMostRecentModelTimestamp` satisfies `r ≤ now - delay`, is a whole multiple
of the run interval counted from the Unix epoch, satisfies `now - delay - r < interval`,
and is the greatest such multiple not exceeding `now - delay`. -/
theorem run_clock_floor (now : Int) :
    (∀ p ∈ models,
      let r := p.2.getMostRecentModelTimestamp now
      let t := now - p.2.openDataDeliveryOffsetMinutes * minuteNs
      let d := p.2.intervalHours * hourNs
      r ≤ t ∧ r % d = 0 ∧ t - r < d ∧ ∀ r' : Int, r' % d = 0 → r' ≤ t → r' ≤ r) ∧
    (∀ p ∈ noaaModels,
      let r := p.2.getMostRecentModelTimestamp now
      let t := now - p.2.openDataDeliveryOffsetMinutes * minuteNs
      let d := p.2.intervalHours * hourNs
      r ≤ t ∧ r % d = 0 ∧ t - r < d ∧ ∀ r' : Int, r' % d = 0 → r' ≤ t → r' ≤ r) := by
  have key : ∀ off k : Int, 0 < k → k ∣ 24 →
      mostRecentModelTimestamp off k now ≤ now - off * minuteNs ∧
      mostRecentModelTimestamp off k now % (k * hourNs) = 0 ∧
      now - off * minuteNs - mostRecentModelTimestamp off k now < k * hourNs ∧
      ∀ r' : Int, r' % (k * hourNs) = 0 → r' ≤ now - off * minuteNs →
        r' ≤ mostRecentModelTimestamp off k now := fun off k hk h24 =>
    ⟨runClock_le off k now hk, runClock_aligned off k now hk h24, runClock_lt off k now hk,
      fun r' h1 h2 => runClock_greatest off k now r' hk h1 h2 h24⟩
  constructor
  · intro p hp
    simp only [models, List.mem_cons, List.mem_singleton, List.not_mem_nil, or_false] at hp
    rcases hp with rfl | rfl | rfl
    · exact key 240 6 (by decide) (by decide)
    · exact key 540 12 (by decide) (by decide)
    · exact key 240 3 (by decide) (by decide)
  · intro p hp
    simp only [noaaModels, List.mem_singleton] at hp
    subst hp
    exact key 360 6 (by decide) (by decide)

theorem run_clock_floor_witness :
    iconEuModel.getMostRecentModelTimestamp 1704110400000000000 = 1704088800000000000 ∧
    (1704088800000000000 : Int) ≤ 1704110400000000000 - 240 * minuteNs ∧
    (1704088800000000000 : Int) % (3 * hourNs) = 0 :=
  have h := (run_clock_floor 1704110400000000000).1 ("icon-eu", iconEuModel) (by decide)
  have e : iconEuModel.getMostRecentModelTimestamp 1704110400000000000 =
      1704088800000000000 := by decide
  ⟨e, e ▸ h.1, e ▸ h.2.1⟩

/-- C10 (the run hour has a configured cap): for every registered model and every instant
`now`, the UTC hour of the timestamp returned by `getMostRecentModelTimestamp` is a key of
the model's `maxStep` map. -/
theorem run_hour_has_cap (now : Int) :
    (∀ p ∈ models,
      mapHas p.2.maxStep (timeHour (p.2.getMostRecentModelTimestamp now)) = true) ∧
    (∀ p ∈ noaaModels,
      mapHas p.2.maxStep (timeHour (p.2.getMostRecentModelTimestamp now)) = true) := by
  have key : ∀ off k : Int, 0 < k → k ∣ 24 →
      timeHour (mostRecentModelTimestamp off k now) % k = 0 ∧
      0 ≤ timeHour (mostRecentModelTimestamp off k now) ∧
      timeHour (mostRecentModelTimestamp off k now) < 24 := fun off k hk h24 =>
    timeHour_of_aligned k _ h24 (runClock_aligned off k now hk h24)
  constructor
  · intro p hp
    simp only [models, List.mem_cons, List.mem_singleton, List.not_mem_nil, or_false] at hp
    rcases hp with rfl | rfl | rfl
    · have h := key 240 6 (by decide) (by decide)
      show mapHas iconModel.maxStep (timeHour (mostRecentModelTimestamp 240 6 now)) = true
      generalize timeHour _ = hr at h
      have : hr = 0 ∨ hr = 6 ∨ hr = 12 ∨ hr = 18 := by omega
      rcases this with h | h | h | h <;> subst h <;> decide
    · have h := key 540 12 (by decide) (by decide)
      show mapHas iconD2Model.maxStep (timeHour (mostRecentModelTimestamp 540 12 now)) = true
      generalize timeHour _ = hr at h
      have : hr = 0 ∨ hr = 12 := by omega
      rcases this with h | h <;> subst h <;> decide
    · have h := key 240 3 (by decide) (by decide)
      show mapHas iconEuModel.maxStep (timeHour (mostRecentModelTimestamp 240 3 now)) = true
      generalize timeHour _ = hr at h
      have : hr = 0 ∨ hr = 3 ∨ hr = 6 ∨ hr = 9 ∨ hr = 12 ∨ hr = 15 ∨ hr = 18 ∨ hr = 21 := by
        omega
      rcases this with h | h | h | h | h | h | h | h <;> subst h <;> decide
  · intro p hp
    simp only [noaaModels, List.mem_singleton] at hp
    subst hp
    have h := key 360 6 (by decide) (by decide)
    show mapHas gfsModel.maxStep (timeHour (mostRecentModelTimestamp 360 6 now)) = true
    generalize timeHour _ = hr at h
    have : hr = 0 ∨ hr = 6 ∨ hr = 12 ∨ hr = 18 := by omega
    rcases this with h | h | h | h <;> subst h <;> decide

theorem run_hour_has_cap_witness :
    timeHour (iconD2Model.getMostRecentModelTimestamp 1704110400000000000) = 0 ∧
    mapHas iconD2Model.maxStep 0 = true :=
  have h := (run_hour_has_cap 1704110400000000000).1 ("icon-d2", iconD2Model) (by decide)
  have e : timeHour (iconD2Model.getMostRecentModelTimestamp 1704110400000000000) = 0 := by
    decide
  ⟨e, e ▸ h⟩

/-! ## Claims about the size of the step plan -/

theorem planSpec_eq_nil_iff (e b : Int) (hb : 0 < b) : planSpec e b = [] ↔ e ≤ 0 := by
  rw [← List.length_eq_zero]
  have h := length_planSpec e b
  constructor
  · intro h0
    rw [h0] at h
    split at h <;> omega
  · intro he
    rw [if_neg (by omega)] at h
    omega

theorem runDWD_maxStep (md : DWDModel) (now : Int) (params : List String) (m : Int) :
    (runDWD md now params m).maxStep =
      min m (mapGet md.maxStep (timeHour (md.getMostRecentModelTimestamp now))) := by
  unfold runDWD
  simp only [capMaxStep_eq_min]
  split <;> rfl

theorem registered_breakPoint_pos :
    (∀ p ∈ models, 0 < p.2.breakPoint) ∧ (∀ p ∈ noaaModels, 0 < p.2.breakPoint) := by
  decide

/-- Every cap a registered model can give, the zero of a missing key included, lies in
`[0, 384]`: the loop counters stay far below the limits of a 64-bit `int`. -/
theorem registered_cap_bounds (k : Int) :
    (∀ p ∈ models, 0 ≤ mapGet p.2.maxStep k ∧ mapGet p.2.maxStep k ≤ 384) ∧
    (∀ p ∈ noaaModels, 0 ≤ mapGet p.2.maxStep k ∧ mapGet p.2.maxStep k ≤ 384) := by
  constructor
  · intro p hp
    simp only [models, List.mem_cons, List.mem_singleton, List.not_mem_nil, or_false] at hp
    rcases hp with rfl | rfl | rfl <;>
      simp only [mapGet, iconModel, iconD2Model, iconEuModel, List.lookup] <;>
      (repeat' split) <;> simp
  · intro p hp
    simp only [noaaModels, List.mem_singleton] at hp
    subst hp
    simp only [mapGet, gfsModel, List.lookup]
    (repeat' split) <;> simp

/-- C7, as the code has it: for every registered model, every instant, every non-empty
parameter list and every requested maximum `m`, with `e = min m cap` the effective maximum
step, the sequence of units dispatched by `StartDWDDownloader` / `StartNOAADownloader` is
empty if and only if `e ≤ 0`, so that every `e ≥ 1` dispatches at least one step.  This is
on the runs in which the error channel can be made: a channel of `384 * len(params)`
errors for `StartDWDDownloader`, which sizes it from the capped maximum, and, for
`StartNOAADownloader`, which sizes it from the request, `m ≤ 0` or a channel of
`m * len(params)` errors. -/
theorem step_plan_empty_iff (now m : Int) (params : List String) (hp : params ≠ [])
    (hD : makeChanPanics (384 * params.length) = false)
    (hN : m ≤ 0 ∨ makeChanPanics (m * params.length) = false) :
    (∀ p ∈ models, ((runDWD p.2 now params m).units = [] ↔
      min m (mapGet p.2.maxStep (timeHour (p.2.getMostRecentModelTimestamp now))) ≤ 0)) ∧
    (∀ p ∈ noaaModels, ((runNOAA p.2 now params m).units = [] ↔
      min m (mapGet p.2.maxStep (timeHour (p.2.getMostRecentModelTimestamp now))) ≤ 0)) := by
  constructor
  · intro p hmem
    have hb := registered_breakPoint_pos.1 p hmem
    have hc := (registered_cap_bounds (timeHour (p.2.getMostRecentModelTimestamp now))).1 p hmem
    have hmake : min m (mapGet p.2.maxStep (timeHour (p.2.getMostRecentModelTimestamp now))) < 0 ∨
        makeChanPanics (min m (mapGet p.2.maxStep
          (timeHour (p.2.getMostRecentModelTimestamp now))) * params.length) = false := by
      by_cases he : min m (mapGet p.2.maxStep
          (timeHour (p.2.getMostRecentModelTimestamp now))) < 0
      · exact Or.inl he
      · right
        push_neg at he
        have hlen : (0 : Int) ≤ params.length := Int.ofNat_nonneg _
        exact makeChanPanics_mono _ _ hD (mul_nonneg he hlen)
          (mul_le_mul_of_nonneg_right (le_trans (min_le_right _ _) hc.2) hlen)
    rw [runDWD_units p.2 now params m hb.le hmake, ← planSpec_eq_nil_iff _ _ hb]
    obtain ⟨q, qs, rfl⟩ := List.exists_cons_of_ne_nil hp
    simp only [List.flatMap_cons, List.append_eq_nil, List.map_eq_nil_iff, List.flatMap_eq_nil_iff]
    exact ⟨fun h => h.1, fun h => ⟨h, fun _ _ => h⟩⟩
  · intro p hmem
    have hb := registered_breakPoint_pos.2 p hmem
    have hc := (registered_cap_bounds (timeHour (p.2.getMostRecentModelTimestamp now))).2 p hmem
    by_cases hm : m < 0
    · rw [runNOAA_units p.2 now params m hb.le (Or.inl hm), planSpec_eq_nil_iff _ _ hb]
    · by_cases hz : m = 0
      · subst hz
        rw [runNOAA_units p.2 now params 0 hb.le (Or.inr (by simp [makeChanPanics])),
          planSpec_eq_nil_iff _ _ hb]
      · have hmk : makeChanPanics (m * params.length) = false := by
          rcases hN with h | h
          · omega
          · exact h
        rw [runNOAA_units p.2 now params m hb.le (Or.inr hmk), planSpec_eq_nil_iff _ _ hb]

theorem step_plan_empty_iff_witness :
    ["t_2m"] ≠ ([] : List String) ∧
    makeChanPanics (384 * (["t_2m"] : List String).length) = false ∧
    ((1 : Int) ≤ 0 ∨ makeChanPanics (1 * (["t_2m"] : List String).length) = false) ∧
    ((runDWD iconEuModel 1704110400000000000 ["t_2m"] 1).units = [] ↔
      min 1 (mapGet iconEuModel.maxStep
        (timeHour (iconEuModel.getMostRecentModelTimestamp 1704110400000000000))) ≤ 0) ∧
    ((runNOAA gfsModel 1704110400000000000 ["t_2m"] 1).units = [] ↔
      min 1 (mapGet gfsModel.maxStep
        (timeHour (gfsModel.getMostRecentModelTimestamp 1704110400000000000))) ≤ 0) :=
  ⟨by decide, by decide, Or.inr (by decide),
    (step_plan_empty_iff 1704110400000000000 1 ["t_2m"] (by decide) (by decide)
      (Or.inr (by decide))).1 ("icon-eu", iconEuModel) (by decide),
    (step_plan_empty_iff 1704110400000000000 1 ["t_2m"] (by decide) (by decide)
      (Or.inr (by decide))).2 ("gfs", gfsModel) (by decide)⟩

/-- C7 fails as stated: with a requested maximum of 0 the effective maximum is 0, which is
not negative, and yet icon-eu dispatches no step at all. -/
theorem step_plan_empty_at_zero :
    (runDWD iconEuModel 1704110400000000000 ["t_2m"] 0).maxStep = 0 ∧
    (runDWD iconEuModel 1704110400000000000 ["t_2m"] 0).panicked = false ∧
    (runDWD iconEuModel 1704110400000000000 ["t_2m"] 0).units = [] ∧
    ¬ ((runDWD iconEuModel 1704110400000000000 ["t_2m"] 0).units = [] ↔
      (runDWD iconEuModel 1704110400000000000 ["t_2m"] 0).maxStep < 0) := by
  have h1 : (runDWD iconEuModel 1704110400000000000 ["t_2m"] 0).maxStep = 0 := by decide
  have h2 : (runDWD iconEuModel 1704110400000000000 ["t_2m"] 0).units = [] := by
    rw [runDWD_units _ _ _ _ (by decide) (Or.inr (by decide))]
    decide
  refine ⟨h1, by decide, h2, ?_⟩
  rw [h1, h2]
  decide

/-- Away from the breakpoint the plan has at most `e` steps; at `e = b` it has `b + 1`. -/
theorem length_planSpec_le (e b : Int) (he : 0 ≤ e) (hb : 0 ≤ b) (hne : e ≠ b) :
    ((planSpec e b).length : Int) ≤ e := by
  rw [length_planSpec]
  split <;> omega

theorem length_planSpec_at_breakPoint (b : Int) (hb : 0 ≤ b) :
    ((planSpec b b).length : Int) = b + 1 := by
  rw [length_planSpec, if_pos le_rfl]
  omega

/-- C8 fails at a requested maximum equal to the breakpoint: icon-d2 with one parameter and
`maxStep = 24` gets an error channel of capacity 24 and 25 units; gfs with one parameter
and `maxStep = 120` gets capacity 120 and 121 units. -/
theorem error_channel_smaller_than_units :
    (runDWD iconD2Model 1704110400000000000 ["t_2m"] 24).panicked = false ∧
    (runDWD iconD2Model 1704110400000000000 ["t_2m"] 24).errorsCap = 24 ∧
    (runDWD iconD2Model 1704110400000000000 ["t_2m"] 24).units.length = 25 ∧
    (runNOAA gfsModel 1704110400000000000 ["TMP"] 120).panicked = false ∧
    (runNOAA gfsModel 1704110400000000000 ["TMP"] 120).errorsCap = 120 ∧
    (runNOAA gfsModel 1704110400000000000 ["TMP"] 120).units.length = 121 := by
  refine ⟨by decide, by decide, ?_, by decide, by decide, ?_⟩
  · rw [runDWD_units _ _ _ _ (by decide) (Or.inr (by decide))]
    have h := length_planSpec
      (min 24 (mapGet iconD2Model.maxStep
        (timeHour (iconD2Model.getMostRecentModelTimestamp 1704110400000000000))))
      iconD2Model.breakPoint
    rw [show max (min (min 24 (mapGet iconD2Model.maxStep
        (timeHour (iconD2Model.getMostRecentModelTimestamp 1704110400000000000))))
      iconD2Model.breakPoint) 0 + (if iconD2Model.breakPoint ≤ min 24 (mapGet iconD2Model.maxStep
        (timeHour (iconD2Model.getMostRecentModelTimestamp 1704110400000000000)))
      then (min 24 (mapGet iconD2Model.maxStep
        (timeHour (iconD2Model.getMostRecentModelTimestamp 1704110400000000000))) -
          iconD2Model.breakPoint) / 3 + 1 else 0) = 25 by decide] at h
    simp only [List.flatMap_cons, List.flatMap_nil, List.append_nil, List.length_map]
    exact_mod_cast h
  · rw [runNOAA_units _ _ _ _ (by decide) (Or.inr (by decide))]
    have h := length_planSpec
      (min 120 (mapGet gfsModel.maxStep
        (timeHour (gfsModel.getMostRecentModelTimestamp 1704110400000000000))))
      gfsModel.breakPoint
    rw [show max (min (min 120 (mapGet gfsModel.maxStep
        (timeHour (gfsModel.getMostRecentModelTimestamp 1704110400000000000))))
      gfsModel.breakPoint) 0 + (if gfsModel.breakPoint ≤ min 120 (mapGet gfsModel.maxStep
        (timeHour (gfsModel.getMostRecentModelTimestamp 1704110400000000000)))
      then (min 120 (mapGet gfsModel.maxStep
        (timeHour (gfsModel.getMostRecentModelTimestamp 1704110400000000000))) -
          gfsModel.breakPoint) / 3 + 1 else 0) = 121 by decide] at h
    exact_mod_cast h

/-! ## URL templates: auxiliary lemmas -/

theorem splitOn_ne_nil (sep : Char) (s : List Char) : splitOn sep s ≠ [] := by
  induction s with
  | nil => simp [splitOn]
  | cons c cs ih =>
    unfold splitOn
    split
    · simp
    · split <;> simp

theorem splitOn_of_not_mem (sep : Char) (s : List Char) (h : sep ∉ s) :
    splitOn sep s = [s] := by
  induction s with
  | nil => rfl
  | cons c cs ih =>
    simp only [List.mem_cons, not_or] at h
    unfold splitOn
    rw [if_neg (fun e => h.1 e.symm), ih h.2]

theorem splitOn_append_sep (sep : Char) (a rest : List Char) (h : sep ∉ a) :
    splitOn sep (a ++ sep :: rest) = a :: splitOn sep rest := by
  induction a with
  | nil => simp [splitOn]
  | cons c cs ih =>
    simp only [List.mem_cons, not_or] at h
    rw [List.cons_append, splitOn, if_neg (fun e => h.1 e.symm), ih h.2]

theorem splitOn_render (segs : List (Placeholder × List Char)) :
    ∀ lit : List Char, '%' ∉ lit → (∀ seg ∈ segs, '%' ∉ seg.2) →
      splitOn '%' (lit ++ segs.flatMap fun seg => seg.1.text ++ seg.2) =
        lit :: segs.map partOf := by
  induction segs with
  | nil =>
    intro lit h _
    simpa using splitOn_of_not_mem '%' lit h
  | cons seg rest ih =>
    intro lit h hs
    have h2 : '%' ∉ partOf seg := by
      have := hs seg (List.mem_cons_self _ _)
      obtain ⟨ph, l⟩ := seg
      cases ph <;> simpa [partOf, Placeholder.text] using this
    have h3 : seg.1.text ++ seg.2 = '%' :: partOf seg := by
      obtain ⟨ph, l⟩ := seg
      cases ph <;> rfl
    rw [List.flatMap_cons, h3, List.cons_append, splitOn_append_sep _ _ _ h,
      ih (partOf seg) h2 (fun s hm => hs s (List.mem_cons_of_mem _ hm))]
    rfl

theorem substArm_succ (xf : List Char → List Char) (args : List (List Char)) (j : Nat)
    (result tail : List Char) :
    substArm xf args (j + 1) result tail =
      some (result ++ ((match args.get? j with
        | some a => xf a
        | none => []) ++ tail)) := by
  unfold substArm argAt
  have e : ((j + 1 : Nat) : Int) - 1 = (j : Int) := by omega
  rw [e]
  by_cases h : j < args.length
  · rw [if_pos (by exact_mod_cast h), if_pos (Int.ofNat_nonneg j), Int.toNat_ofNat,
      List.get?_eq_get h]
    simp
  · rw [if_neg (by exact_mod_cast h), List.get?_eq_none.mpr (by omega)]
    rfl

theorem formatStep_succ (toUpper toLower : List Char → List Char) (args : List (List Char))
    (j : Nat) (seg : Placeholder × List Char) (result : List Char)
    (hp : seg.1 = Placeholder.plain → seg.2.head? ≠ some 'U' ∧ seg.2.head? ≠ some 'L') :
    formatStep toUpper toLower args (j + 1) (partOf seg) result =
      some (result ++ ((match args.get? j with
        | some a => seg.1.apply toUpper toLower a
        | none => []) ++ seg.2)) := by
  obtain ⟨ph, lit⟩ := seg
  cases ph
  · have hU : hasPrefix ('s' :: lit) ['s', 'U'] = false := by
      cases lit with
      | nil => rfl
      | cons c cs =>
        have := (hp rfl).1
        simp only [List.head?_cons, ne_eq, Option.some.injEq] at this
        simp [hasPrefix, List.isPrefixOf, Ne.symm this]
    have hL : hasPrefix ('s' :: lit) ['s', 'L'] = false := by
      cases lit with
      | nil => rfl
      | cons c cs =>
        have := (hp rfl).2
        simp only [List.head?_cons, ne_eq, Option.some.injEq] at this
        simp [hasPrefix, List.isPrefixOf, Ne.symm this]
    have hS : hasPrefix ('s' :: lit) ['s'] = true := by simp [hasPrefix, List.isPrefixOf]
    simp [formatStep, partOf, Placeholder.text, hU, hL, hS, substArm_succ, Placeholder.apply, id]
  · have hU : hasPrefix ('s' :: 'U' :: lit) ['s', 'U'] = true := by
      simp [hasPrefix, List.isPrefixOf]
    simp [formatStep, partOf, Placeholder.text, hU, if_true, substArm_succ, Placeholder.apply]
  · have hU : hasPrefix ('s' :: 'L' :: lit) ['s', 'U'] = false := by
      simp [hasPrefix, List.isPrefixOf]
    have hL : hasPrefix ('s' :: 'L' :: lit) ['s', 'L'] = true := by
      simp [hasPrefix, List.isPrefixOf]
    simp [formatStep, partOf, Placeholder.text, hU, hL, substArm_succ, Placeholder.apply]

theorem formatLoop_segs (toUpper toLower : List Char → List Char) (args : List (List Char))
    (segs : List (Placeholder × List Char)) :
    ∀ (j : Nat) (result : List Char),
      (∀ seg ∈ segs, seg.1 = Placeholder.plain →
        seg.2.head? ≠ some 'U' ∧ seg.2.head? ≠ some 'L') →
      formatLoop toUpper toLower args (j + 1) (segs.map partOf) result =
        some (result ++ substituteFrom toUpper toLower args j segs) := by
  induction segs with
  | nil =>
    intro j result _
    simp [formatLoop, substituteFrom]
  | cons seg rest ih =>
    intro j result hp
    rw [List.map_cons, formatLoop,
      formatStep_succ toUpper toLower args j seg result (hp seg (List.mem_cons_self _ _))]
    simp only []
    rw [ih (j + 1) _ (fun s hm => hp s (List.mem_cons_of_mem _ hm))]
    simp [substituteFrom, List.append_assoc]

theorem formatStep_zero (toUpper toLower : List Char → List Char) (args : List (List Char))
    (lit result : List Char) (h : lit.head? ≠ some 's') :
    formatStep toUpper toLower args 0 lit result = some (result ++ lit) := by
  have hS : hasPrefix lit ['s'] = false := by
    cases lit with
    | nil => rfl
    | cons c cs =>
      simp only [List.head?_cons, ne_eq, Option.some.injEq] at h
      simp [hasPrefix, List.isPrefixOf, Ne.symm h]
  have hU : hasPrefix lit ['s', 'U'] = false := by
    cases lit with
    | nil => rfl
    | cons c cs =>
      simp only [List.head?_cons, ne_eq, Option.some.injEq] at h
      simp [hasPrefix, List.isPrefixOf, Ne.symm h]
  have hL : hasPrefix lit ['s', 'L'] = false := by
    cases lit with
    | nil => rfl
    | cons c cs =>
      simp only [List.head?_cons, ne_eq, Option.some.injEq] at h
      simp [hasPrefix, List.isPrefixOf, Ne.symm h]
  simp [formatStep, hS, hU, hL]

/-- C5 (URL template substitution): for every template
`lit0 ++ ph1 ++ lit1 ++ ... ++ phk ++ litk` with placeholders among `%s`, `%sU`, `%sL`,
no `%` inside a literal, `lit0` not beginning with `s`, and no `U` or `L` right after a
plain `%s`, and for every argument list, `formatString` does not fail and returns
`lit0 ++ f1(a1) ++ lit1 ++ ... ++ fk(ak) ++ litk`, where `fi` upper-cases for `%sU`,
lower-cases for `%sL` and is the identity for `%s`, and a placeholder with no remaining
argument emits nothing. -/
theorem formatString_substitutes (toUpper toLower : List Char → List Char) (t : Template)
    (args : List (List Char)) (h : t.WellFormed) :
    formatString toUpper toLower t.render args =
      some (t.substitute toUpper toLower args) := by
  obtain ⟨h0, hs, hh, hp⟩ := h
  unfold formatString Template.render Template.substitute
  rw [splitOn_render t.segs t.lit0 h0 hs, formatLoop,
    formatStep_zero toUpper toLower args t.lit0 [] hh]
  simp only [List.nil_append]
  exact formatLoop_segs toUpper toLower args t.segs 0 t.lit0 hp

theorem formatString_substitutes_witness :
    (Template.mk [] [(Placeholder.lower, ['_']), (Placeholder.upper, ['_']),
      (Placeholder.plain, [])]).WellFormed ∧
    formatString asciiUpper asciiLower "%sL_%sU_%s".toList
      ["icon".toList, "EU".toList, "03".toList] = some "icon_EU_03".toList :=
  ⟨by simp [Template.WellFormed],
    formatString_substitutes asciiUpper asciiLower
      (Template.mk [] [(Placeholder.lower, ['_']), (Placeholder.upper, ['_']),
        (Placeholder.plain, [])])
      ["icon".toList, "EU".toList, "03".toList] (by simp [Template.WellFormed])⟩

/-! ## Claims about the index sidecar -/

/-- C3 on the code: the two-line example resolves `TMP` / `2 m above ground` to Start 0,
End 500000; but on a body of three well-formed records with distinct keys, the second
record, which has a successor, gets no entry at all, because the look-ahead
`scanner.Scan()` consumes it. -/
theorem index_skips_lookahead_record :
    (getIndexFile (.body ["1:0:d=2024010100:TMP:2 m above ground:".toList,
        "2:500000:d=2024010100:TMP:10 m above ground:".toList] false)).toOption.bind
      (fun t => t.entry "TMP".toList "2 m above ground".toList) = some ⟨0, 500000⟩ ∧
    getIndexFile (.body ["1:0:d=2024010100:TMP:2 m above ground:".toList,
        "2:500000:d=2024010100:TMP:10 m above ground:".toList,
        "3:900000:d=2024010100:UGRD:10 m above ground:".toList] false) =
      .ok [("TMP".toList, [("2 m above ground".toList, ⟨0, 500000⟩)]),
           ("UGRD".toList, [("10 m above ground".toList, ⟨900000, 0⟩)])] ∧
    (getIndexFile (.body ["1:0:d=2024010100:TMP:2 m above ground:".toList,
        "2:500000:d=2024010100:TMP:10 m above ground:".toList,
        "3:900000:d=2024010100:UGRD:10 m above ground:".toList] false)).toOption.bind
      (fun t => t.entry "TMP".toList "10 m above ground".toList) = none := by
  refine ⟨?_, ?_, ?_⟩ <;> simp [getIndexFile, indexLoop] <;> decide

/-- C6 on the code: a malformed line that follows a well-formed record is not skipped.
With the line `garbage` between two records the first record gets End 0 and the second
one an entry of its own; with that line removed the first record gets End 500 and the
second one no entry. -/
theorem index_malformed_line_changes_table :
    malformed "garbage".toList = true ∧
    malformed "1:0:d=2024010100:TMP:surface:".toList = false ∧
    malformed "2:500:d=2024010100:UGRD:surface:".toList = false ∧
    getIndexFile (.body ["1:0:d=2024010100:TMP:surface:".toList, "garbage".toList,
        "2:500:d=2024010100:UGRD:surface:".toList] false) =
      .ok [("TMP".toList, [("surface".toList, ⟨0, 0⟩)]),
           ("UGRD".toList, [("surface".toList, ⟨500, 0⟩)])] ∧
    getIndexFile (.body (["1:0:d=2024010100:TMP:surface:".toList, "garbage".toList,
        "2:500:d=2024010100:UGRD:surface:".toList].filter (fun l => !malformed l)) false) =
      .ok [("TMP".toList, [("surface".toList, ⟨0, 500⟩)])] := by
  refine ⟨by decide, by decide, by decide, ?_, ?_⟩
  · simp [getIndexFile, indexLoop]
    decide
  · have h : (["1:0:d=2024010100:TMP:surface:".toList, "garbage".toList,
        "2:500:d=2024010100:UGRD:surface:".toList].filter (fun l => !malformed l)) =
        ["1:0:d=2024010100:TMP:surface:".toList,
          "2:500:d=2024010100:UGRD:surface:".toList] := by decide
    rw [h]
    simp [getIndexFile, indexLoop]
    decide

/-! ## Claims about the workers -/

theorem dwd_retry_exhaustion (env : Nat → Attempt) (hn : ∀ k, networkFailure StatusOK (env k))
    (n : Nat) : ∀ (sent : Nat) (retries : Int), retries.toNat = n → 0 ≤ retries →
      (dwdDownloadAndProcessFile env sent retries).requests = sent + 1 + n ∧
      (dwdDownloadAndProcessFile env sent retries).err ≠ none := by
  induction n with
  | zero =>
    intro sent retries h0 h1
    have hr : ¬ retries > 0 := by omega
    rw [dwdDownloadAndProcessFile]
    rcases hn sent with h | ⟨status, h, hs⟩
    · simp [h, hr]
    · simp [h, hr, hs]
  | succ n ih =>
    intro sent retries h0 h1
    have hr : retries > 0 := by omega
    have := ih (sent + 1) (retries - 1) (by omega) (by omega)
    rw [dwdDownloadAndProcessFile]
    rcases hn sent with h | ⟨status, h, hs⟩
    · simp only [h, hr, if_true]
      refine ⟨by omega, this.2⟩
    · simp only [h, hr, hs, ne_eq, not_false_eq_true, if_true]
      refine ⟨by omega, this.2⟩

theorem noaa_transport_retry_exhaustion (env : Nat → Attempt)
    (hq : ∀ k, (env k).newRequestOk = true) (hn : ∀ k, (env k).http = .transportError)
    (n : Nat) : ∀ (sent : Nat) (retries : Int), retries.toNat = n → 0 ≤ retries →
      (noaaDownloadAndProcessFile env sent retries).requests = sent + 1 + n ∧
      (noaaDownloadAndProcessFile env sent retries).err ≠ none := by
  induction n with
  | zero =>
    intro sent retries h0 h1
    have hr : ¬ retries > 0 := by omega
    rw [noaaDownloadAndProcessFile]
    simp [hq sent, hn sent, hr]
  | succ n ih =>
    intro sent retries h0 h1
    have hr : retries > 0 := by omega
    have := ih (sent + 1) (retries - 1) (by omega) (by omega)
    rw [noaaDownloadAndProcessFile]
    simp only [hq sent, hn sent, hr, Bool.not_true, Bool.false_eq_true, if_false, if_true]
    exact ⟨by omega, this.2⟩

/-- C4 on the code: against a server that answers every request with status 404, the DWD
worker with retry budget 5 issues 6 requests and returns an error, while the NOAA worker
issues 6 requests, then writes the body of the last response to the output file and
returns nil. -/
theorem noaa_retry_exhaustion_returns_nil :
    (∀ k, networkFailure StatusOK (always404 k)) ∧
    (∀ k, networkFailure StatusPartialContent (always404 k)) ∧
    dwdDownloadAndProcessFile always404 0 5 = ⟨6, some (.badStatus 404)⟩ ∧
    noaaDownloadAndProcessFile always404 0 5 = ⟨6, none⟩ ∧
    noaaDownloadAndProcessFile always404 0 0 = ⟨1, none⟩ := by
  refine ⟨fun k => Or.inr ⟨404, rfl, by decide⟩, fun k => Or.inr ⟨404, rfl, by decide⟩,
    ?_, ?_, ?_⟩
  · simp [dwdDownloadAndProcessFile, always404, StatusOK]
  · simp [noaaDownloadAndProcessFile, always404, StatusPartialContent]
  · simp [noaaDownloadAndProcessFile, always404, StatusPartialContent]

/-- C9 on the code: for the entry Start 0, End 500000 the worker sends
`Range: bytes=0-500000`; the last-byte position is the End offset itself, not End - 1,
so the request spans 500001 bytes and takes in the first byte of the next record. -/
theorem range_header_includes_next_byte :
    rangeHeader [("TMP".toList, [("2 m above ground".toList, ⟨0, 500000⟩)])]
      "TMP".toList "2 m above ground".toList = "bytes=0-500000".toList ∧
    rangePositions [("TMP".toList, [("2 m above ground".toList, ⟨0, 500000⟩)])]
      "TMP".toList "2 m above ground".toList = (0, 500000) ∧
    rangeSpan (rangePositions [("TMP".toList, [("2 m above ground".toList, ⟨0, 500000⟩)])]
      "TMP".toList "2 m above ground".toList) = 500000 - 0 + 1 := by
  decide

end Gribdl
